import Mathlib

/-!
Verification of the textual-inputs widget library.

The development shallowly embeds the editing / viewport-scrolling core of
`textual_inputs/text_input.py`, the numeric key handler of
`textual_inputs/integer_input.py`, the message-class factory of
`textual_inputs/events.py` and the style lookup of `textual_inputs/styling.py`.

Python strings are modelled as `List Char`; Python integers as `Int`
(cursor and scroll positions are Python ints and may be negative in
intermediate arithmetic, so they are embedded as `Int`, with Python's
`max(0, i)` appearing explicitly).  A Python function that can raise an
uncaught exception is embedded as a function into `Option` / `Except`,
`none` / `.error` marking the raise.
-/

namespace TextualInputs

/-- Python `s[:i]` for a non-negative index `i` (every call site in the
embedded code guards the index to be ≥ 0, where Python's negative-index
slicing semantics never triggers; `Int.toNat` sends negatives to 0). -/
def pyTake (s : List Char) (i : Int) : List Char := s.take i.toNat

/-- Python `s[i:]` for a non-negative index `i`. -/
def pyDrop (s : List Char) (i : Int) : List Char := s.drop i.toNat

/-- Python `s[l:r]` for non-negative bounds. -/
def pySlice (s : List Char) (l r : Int) : List Char := (s.take r.toNat).drop l.toNat

/-- The key events `TextInput.on_key` / `IntegerInput.on_key` dispatch on.
`backspace` is the `"ctrl+h"` key, `char c` a one-character printable key,
`other` any key string neither handler recognises. -/
inductive Key where
  | left
  | right
  | up
  | down
  | home
  | endKey
  | backspace
  | delete
  | char (c : Char)
  | other
deriving DecidableEq, Repr

/-- The mutable state of a `TextInput` widget: `value`, `_cursor_position`,
`_view_offset` and `edge_visibility` (the constructor sets the latter to 3). -/
structure TextState where
  value : List Char
  cursorPosition : Int
  viewOffset : Int
  edgeVisibility : Int
deriving DecidableEq, Repr

/-- `TextInput.__init__`: cursor starts at the end of the initial value,
view offset at 0, edge visibility 3. -/
def TextState.init (v : List Char) : TextState :=
  ⟨v, (v.length : Int), 0, 3⟩

/-- `TextInput._set_view_left_boundary`: `self._view_offset = max(0, index)`. -/
def setViewLeftBoundary (st : TextState) (index : Int) : TextState :=
  { st with viewOffset := max 0 index }

/-- `TextInput._set_view_right_boundary`:
`right = min(len(self.value), index); self._set_view_left_boundary(right - self._view_width + 1)`. -/
def setViewRightBoundary (width : Int) (st : TextState) (index : Int) : TextState :=
  setViewLeftBoundary st (min (st.value.length : Int) index - width + 1)

/-- `TextInput._ensure_cursor_visible`.  `width` is `self._view_width`,
supplied by the host at call time. -/
def ensureCursorVisible (width : Int) (st : TextState) : TextState :=
  let left := st.viewOffset
  let right := st.viewOffset + width - 1
  if st.cursorPosition < left + st.edgeVisibility then
    setViewLeftBoundary st (st.cursorPosition - st.edgeVisibility)
  else if st.cursorPosition > right - st.edgeVisibility then
    setViewRightBoundary width st (st.cursorPosition + st.edgeVisibility)
  else
    st

/-- `TextInput._cursor_left`. -/
def cursorLeft (width : Int) (st : TextState) : TextState :=
  if st.cursorPosition > 0 then
    ensureCursorVisible width { st with cursorPosition := st.cursorPosition - 1 }
  else
    st

/-- `TextInput._cursor_right`. -/
def cursorRight (width : Int) (st : TextState) : TextState :=
  if st.cursorPosition < (st.value.length : Int) then
    ensureCursorVisible width { st with cursorPosition := st.cursorPosition + 1 }
  else
    st

/-- `TextInput._cursor_home`. -/
def cursorHome (width : Int) (st : TextState) : TextState :=
  ensureCursorVisible width { st with cursorPosition := 0 }

/-- `TextInput._cursor_end`. -/
def cursorEnd (width : Int) (st : TextState) : TextState :=
  ensureCursorVisible width { st with cursorPosition := (st.value.length : Int) }

/-- `TextInput._key_backspace`:
`value = value[:cursor-1] + value[cursor:]; cursor -= 1; ensure visible`. -/
def keyBackspace (width : Int) (st : TextState) : TextState :=
  if st.cursorPosition > 0 then
    ensureCursorVisible width
      { st with
        value := pyTake st.value (st.cursorPosition - 1) ++ pyDrop st.value st.cursorPosition
        cursorPosition := st.cursorPosition - 1 }
  else
    st

/-- `TextInput._key_delete`: removes the character under the cursor; the
source performs no viewport resynchronization here. -/
def keyDelete (st : TextState) : TextState :=
  if st.cursorPosition < (st.value.length : Int) then
    { st with
      value := pyTake st.value st.cursorPosition ++ pyDrop st.value (st.cursorPosition + 1) }
  else
    st

/-- `TextInput._key_printable`: splice the character in at the cursor, then
(under the guard `not cursor > len(value)`, evaluated on the new value)
advance the cursor and resynchronize the viewport. -/
def keyPrintable (width : Int) (ch : Char) (st : TextState) : TextState :=
  let st1 :=
    { st with
      value := pyTake st.value st.cursorPosition ++ [ch] ++ pyDrop st.value st.cursorPosition }
  if ¬ st1.cursorPosition > (st1.value.length : Int) then
    ensureCursorVisible width { st1 with cursorPosition := st1.cursorPosition + 1 }
  else
    st1

/-- `TextInput.on_key`.  The boolean records whether `_emit_on_change` ran,
i.e. whether an on-change message was emitted and the key event stopped
(the source does both together, unconditionally, in those branches). -/
def textOnKey (width : Int) (st : TextState) : Key → TextState × Bool
  | .left => (cursorLeft width st, false)
  | .right => (cursorRight width st, false)
  | .home => (cursorHome width st, false)
  | .endKey => (cursorEnd width st, false)
  | .backspace => (keyBackspace width st, true)
  | .delete => (keyDelete st, true)
  | .char c => (keyPrintable width c st, true)
  | _ => (st, false)

/-- Folding a sequence of key events through `TextInput.on_key`. -/
def applyTextKeys (width : Int) (st : TextState) (ks : List Key) : TextState :=
  ks.foldl (fun s k => (textOnKey width s k).1) st

/-! ## IntegerInput (`integer_input.py`) -/

/-- Value of digits accumulated left to right (Python `int` on an all-digit
string). -/
def digitsToNat (s : List Char) : Nat :=
  s.foldl (fun acc c => acc * 10 + (c.toNat - ('0').toNat)) 0

/-- Python `int(s)` restricted to the strings the widget can build: an
optional sign followed by digits.  `none` models a raised `ValueError`. -/
def pyInt (s : List Char) : Option Int :=
  match s with
  | [] => none
  | '-' :: rest =>
    if rest ≠ [] ∧ rest.all Char.isDigit then some (-(digitsToNat rest : Int)) else none
  | '+' :: rest =>
    if rest ≠ [] ∧ rest.all Char.isDigit then some ((digitsToNat rest : Int)) else none
  | _ =>
    if s.all Char.isDigit then some ((digitsToNat s : Int)) else none

/-- Python `str(x)` for `x : Optional[int]` (`str(None) = "None"`). -/
def pyStr (v : Option Int) : List Char :=
  match v with
  | none => ['N', 'o', 'n', 'e']
  | some n => (toString n).toList

/-- The mutable state of an `IntegerInput` widget: `value`,
`_cursor_position` and the configured `step`. -/
structure IntState where
  value : Option Int
  cursorPosition : Int
  step : Int
deriving DecidableEq, Repr

/-- `IntegerInput.__init__`: the cursor starts at `len(str(self.value))`
(note: `str(None)` is `"None"`, of length 4). -/
def IntState.init (v : Option Int) (step : Int) : IntState :=
  ⟨v, ((pyStr v).length : Int), step⟩

/-- `IntegerInput._value_as_str`: `"" if self.value is None else str(self.value)`. -/
def intValueAsStr (v : Option Int) : List Char :=
  match v with
  | none => []
  | some n => (toString n).toList

/-- `IntegerInput._increment_value` followed by the cursor snap both arrow
branches perform: treat `None` as 0, add the increment, put the cursor at
the end of the new value string. -/
def intIncrement (st : IntState) (increment : Int) : IntState :=
  let newValue : Option Int := some (st.value.getD 0 + increment)
  { st with value := newValue, cursorPosition := ((intValueAsStr newValue).length : Int) }

/-- `IntegerInput.on_key`.  The result is `none` when the Python handler
raises an uncaught exception (`ValueError` from `int(...)`, or `IndexError`
from `value[0]` on an empty string); otherwise `some (state, emitted)`
where `emitted` records whether `_emit_on_change` ran (which both emits the
on-change message and stops the event). -/
def integerOnKey (st : IntState) (k : Key) : Option (IntState × Bool) :=
  let value := intValueAsStr st.value
  match k with
  | .left =>
    if st.cursorPosition = 0 then
      some ({ st with cursorPosition := 0 }, false)
    else
      some ({ st with cursorPosition := st.cursorPosition - 1 }, false)
  | .right =>
    if st.cursorPosition ≠ (value.length : Int) then
      some ({ st with cursorPosition := st.cursorPosition + 1 }, false)
    else
      some (st, false)
  | .up => some (intIncrement st st.step, false)
  | .down => some (intIncrement st (-st.step), false)
  | .home => some ({ st with cursorPosition := 0 }, false)
  | .endKey => some ({ st with cursorPosition := (value.length : Int) }, false)
  | .backspace =>
    if st.cursorPosition = 0 then
      some (st, false)
    else if value.length = 1 then
      some ({ st with value := none, cursorPosition := 0 }, true)
    else if value.length = 2 then
      if st.cursorPosition = 1 then
        (pyInt (value.drop 1)).map (fun n => ({ st with value := some n, cursorPosition := 0 }, true))
      else
        (pyInt (value.take 1)).map (fun n => ({ st with value := some n, cursorPosition := 1 }, true))
    else
      if st.cursorPosition = 1 then
        (pyInt (value.drop 1)).map (fun n => ({ st with value := some n, cursorPosition := 0 }, true))
      else if st.cursorPosition = (value.length : Int) then
        (pyInt (value.take (value.length - 1))).map
          (fun n => ({ st with value := some n, cursorPosition := st.cursorPosition - 1 }, true))
      else
        (pyInt (pyTake value (st.cursorPosition - 1) ++ pyDrop value st.cursorPosition)).map
          (fun n => ({ st with value := some n, cursorPosition := st.cursorPosition - 1 }, true))
  | .delete =>
    if st.cursorPosition = (value.length : Int) then
      some (st, false)
    else if value.length = 1 then
      some ({ st with value := none }, true)
    else if value.length = 2 then
      if st.cursorPosition = 1 then
        (pyInt (value.take 1)).map (fun n => ({ st with value := some n }, true))
      else
        (pyInt (value.drop 1)).map (fun n => ({ st with value := some n }, true))
    else
      if st.cursorPosition = 0 then
        (pyInt (value.drop 1)).map (fun n => ({ st with value := some n }, true))
      else
        (pyInt (pyTake value st.cursorPosition ++ pyDrop value (st.cursorPosition + 1))).map
          (fun n => ({ st with value := some n }, true))
  | .char c =>
    if c.isDigit then
      let newStr :=
        if st.cursorPosition = 0 then c :: value
        else if st.cursorPosition = (value.length : Int) then value ++ [c]
        else pyTake value st.cursorPosition ++ [c] ++ pyDrop value st.cursorPosition
      (pyInt newStr).map (fun n =>
        let cur :=
          if ¬ st.cursorPosition > ((intValueAsStr (some n)).length : Int) then
            st.cursorPosition + 1
          else
            st.cursorPosition
        ({ st with value := some n, cursorPosition := cur }, true))
    else if c = '-' ∧ st.cursorPosition = 0 then
      match value with
      | [] => none
      | v0 :: _ =>
        if v0 ≠ '-' ∧ value ≠ ['0'] then
          (pyInt ('-' :: value)).map (fun n => ({ st with value := some n }, true))
        else
          some (st, false)
    else
      some (st, false)
  | .other => some (st, false)

/-- Folding a sequence of key events through `IntegerInput.on_key`; a raised
exception aborts the whole run. -/
def applyIntKeys (st : IntState) (ks : List Key) : Option IntState :=
  ks.foldlM (fun s k => (integerOnKey s k).map (·.1)) st

/-! ## Rendering -/

/-- A display segment produced by the render code: either plain text or the
cursor marker (the `(char, style)` pair `self.cursor`). -/
inductive Segment where
  | text (s : List Char)
  | cursor
deriving DecidableEq, Repr

/-- `conceal_text`: a same-length run of bullets. -/
def concealText (segment : List Char) : List Char :=
  List.replicate segment.length '•'

/-- `TextInput._modify_text` for the widget configurations the model covers
(`syntax=None`; the highlighting branch delegates to an external rich
console and is outside the embedded core). -/
def modifyText (hasPassword : Bool) (segment : List Char) : List Char :=
  if hasPassword then concealText segment else segment

/-- `TextInput._render_text`.  `width` is `self._view_width`. -/
def textRenderText (width : Int) (hasPassword hasFocus : Bool) (st : TextState) :
    List Segment :=
  let text := modifyText hasPassword st.value
  let left := st.viewOffset
  let right := st.viewOffset + width
  let right := if hasFocus then right - 1 else right
  let text := pySlice text left right
  if hasFocus then
    let rel := st.cursorPosition - left
    [Segment.text (pyTake text rel), Segment.cursor, Segment.text (pyDrop text rel)]
  else
    [Segment.text text]

/-- `IntegerInput._render_text_with_cursor`. -/
def intRenderTextWithCursor (st : IntState) : List Segment :=
  let value := intValueAsStr st.value
  if value.length = 0 then
    [Segment.cursor]
  else if st.cursorPosition = 0 then
    [Segment.cursor, Segment.text value]
  else if st.cursorPosition = (value.length : Int) then
    [Segment.text value, Segment.cursor]
  else
    [Segment.text (pyTake value st.cursorPosition), Segment.cursor,
      Segment.text (pyDrop value st.cursorPosition)]

/-- The segment computation of `IntegerInput.render` (the part assembled
into the `Text` that the panel displays). -/
def intRenderSegments (hasFocus : Bool) (placeholder title : List Char)
    (st : IntState) : List Segment :=
  let value := intValueAsStr st.value
  if hasFocus then
    intRenderTextWithCursor st
  else if value.length = 0 then
    if title ≠ [] ∧ placeholder = [] then [Segment.text title]
    else [Segment.text placeholder]
  else
    [Segment.text value]

/-! ## Message classes (`events.py`) -/

/-- `HANDLER_SAFE = ascii_lowercase + digits + "_"`. -/
def HANDLER_SAFE : List Char :=
  "abcdefghijklmnopqrstuvwxyz0123456789_".toList

/-- A `Message` subclass as produced by `make_message_class`: its runtime
class name, its `_handler` attribute and its `bubble` flag. -/
structure MessageClass where
  name : List Char
  handler : List Char
  bubble : Bool
deriving DecidableEq, Repr

/-- The `InputOnChange` message class (`_handler = "handle_input_on_change"`). -/
def InputOnChange : MessageClass :=
  ⟨"input_on_change".toList, "handle_input_on_change".toList, true⟩

/-- The `InputOnFocus` message class (`_handler = "handle_input_on_focus"`). -/
def InputOnFocus : MessageClass :=
  ⟨"input_on_focus".toList, "handle_input_on_focus".toList, true⟩

/-- `make_message_class`.  `.error` models a raised `ValueError`; on success
the produced class is named `handler_name.lower()[7:]`, carries
`_handler = handler_name` and has `bubble = True`. -/
def make_message_class (handler_name : List Char) : Except (List Char) MessageClass :=
  if ¬ ("handle_".toList.isPrefixOf handler_name) then
    .error "handler_name must start with handle_".toList
  else if handler_name.length < 7 then
    .error "handler_name must be greater than 7 characters".toList
  else if ¬ (handler_name.all (fun c => c ∈ HANDLER_SAFE)) then
    .error "handler_name must contain only lowercase ASCII letters, numbers and underscores.".toList
  else
    .ok ⟨(handler_name.map Char.toLower).drop 7, handler_name, true⟩

/-- The message-class slots of a `TextInput` (set by the
`on_change_handler_name` / `on_focus_handler_name` property setters, read
back by the getters as the stored class's `_handler`). -/
structure TextInputHandlers where
  onChangeMessageClass : MessageClass
  onFocusMessageClass : MessageClass
deriving DecidableEq, Repr

/-- The `on_change_handler_name` property getter. -/
def on_change_handler_name (t : TextInputHandlers) : List Char :=
  t.onChangeMessageClass.handler

/-- The `on_change_handler_name` property setter (propagating the
`ValueError` of `make_message_class`). -/
def set_on_change_handler_name (t : TextInputHandlers) (handler_name : List Char) :
    Except (List Char) TextInputHandlers :=
  (make_message_class handler_name).map (fun m => { t with onChangeMessageClass := m })

/-! ## Styling (`styling.py`) -/

/-- The widget states of `styling.State`. -/
inductive WidgetState where
  | default
  | focus
  | hover
deriving DecidableEq, Repr

/-- A rich `Style`, modelled opaquely by an identifier (the styling module
only stores and returns styles, never inspects them). -/
structure Style where
  id : Nat
deriving DecidableEq, Repr

/-- The `style_map` dict an `ElementStyle` builds in its constructor. -/
structure ElementStyle where
  defaultStyle : Style
  focusStyle : Style
  hoverStyle : Style
deriving DecidableEq, Repr

/-- `ElementStyle.__init__(default, *, focus=None, hover=None)`:
`{"default": default, "focus": focus or default, "hover": hover or default}`. -/
def ElementStyle.make (d : Style) (focus hover : Option Style) : ElementStyle :=
  ⟨d, focus.getD d, hover.getD d⟩

/-- `ElementStyle.get_style_for_state`. -/
def get_style_for_state (es : ElementStyle) : WidgetState → Style
  | .default => es.defaultStyle
  | .focus => es.focusStyle
  | .hover => es.hoverStyle

/-! ## Invariants -/

/-- The unconditional part of the reachable-state invariant: the cursor is a
valid insertion point and the scroll offset is non-negative. -/
def BasicInv (st : TextState) : Prop :=
  0 ≤ st.cursorPosition ∧ st.cursorPosition ≤ (st.value.length : Int) ∧ 0 ≤ st.viewOffset

/-- The viewport half of the invariant: the window never starts past the
cursor. -/
def ScrollInv (st : TextState) : Prop :=
  st.viewOffset ≤ st.cursorPosition

/-! ## Helper lemmas -/

theorem ensureCursorVisible_value (w : Int) (st : TextState) :
    (ensureCursorVisible w st).value = st.value := by
  simp only [ensureCursorVisible, setViewRightBoundary, setViewLeftBoundary]
  split
  · rfl
  · split <;> rfl

theorem ensureCursorVisible_cursor (w : Int) (st : TextState) :
    (ensureCursorVisible w st).cursorPosition = st.cursorPosition := by
  simp only [ensureCursorVisible, setViewRightBoundary, setViewLeftBoundary]
  split
  · rfl
  · split <;> rfl

theorem ensureCursorVisible_edge (w : Int) (st : TextState) :
    (ensureCursorVisible w st).edgeVisibility = st.edgeVisibility := by
  simp only [ensureCursorVisible, setViewRightBoundary, setViewLeftBoundary]
  split
  · rfl
  · split <;> rfl

theorem ensureCursorVisible_viewOffset (w : Int) (st : TextState) :
    (ensureCursorVisible w st).viewOffset =
      if st.cursorPosition < st.viewOffset + st.edgeVisibility then
        max 0 (st.cursorPosition - st.edgeVisibility)
      else if st.cursorPosition > st.viewOffset + w - 1 - st.edgeVisibility then
        max 0 (min (st.value.length : Int) (st.cursorPosition + st.edgeVisibility) - w + 1)
      else
        st.viewOffset := by
  simp only [ensureCursorVisible, setViewRightBoundary, setViewLeftBoundary]
  split
  · rfl
  · split <;> rfl

theorem ensureCursorVisible_basicInv (w : Int) (st : TextState) (h : BasicInv st) :
    BasicInv (ensureCursorVisible w st) := by
  obtain ⟨h1, h2, h3⟩ := h
  refine ⟨?_, ?_, ?_⟩
  · rw [ensureCursorVisible_cursor]
    exact h1
  · rw [ensureCursorVisible_cursor, ensureCursorVisible_value]
    exact h2
  · rw [ensureCursorVisible_viewOffset]
    split_ifs <;> omega

theorem ensureCursorVisible_scrollInv (w : Int) (st : TextState)
    (he : 0 ≤ st.edgeVisibility) (hw : st.edgeVisibility + 1 ≤ w)
    (hc : 0 ≤ st.cursorPosition) :
    ScrollInv (ensureCursorVisible w st) := by
  unfold ScrollInv
  rw [ensureCursorVisible_cursor, ensureCursorVisible_viewOffset]
  split_ifs <;> omega

theorem textOnKey_basicInv (w : Int) (st : TextState) (k : Key) (h : BasicInv st) :
    BasicInv (textOnKey w st k).1 := by
  obtain ⟨v, c, o, e⟩ := st
  obtain ⟨h1, h2, h3⟩ := h
  simp only at h1 h2 h3
  cases k with
  | left =>
    simp only [textOnKey, cursorLeft]
    split_ifs with hg
    · refine ensureCursorVisible_basicInv _ _ ⟨?_, ?_, ?_⟩ <;> simp only <;> omega
    · exact ⟨h1, h2, h3⟩
  | right =>
    simp only [textOnKey, cursorRight]
    split_ifs with hg
    · refine ensureCursorVisible_basicInv _ _ ⟨?_, ?_, ?_⟩ <;> simp only <;> omega
    · exact ⟨h1, h2, h3⟩
  | home =>
    simp only [textOnKey, cursorHome]
    refine ensureCursorVisible_basicInv _ _ ⟨?_, ?_, ?_⟩ <;> simp only <;> omega
  | endKey =>
    simp only [textOnKey, cursorEnd]
    refine ensureCursorVisible_basicInv _ _ ⟨?_, ?_, ?_⟩ <;> simp only <;> omega
  | backspace =>
    simp only [textOnKey, keyBackspace]
    split_ifs with hg
    · have hl : (pyTake v (c - 1) ++ pyDrop v c).length = v.length - 1 := by
        simp only [pyTake, pyDrop, List.length_append, List.length_take, List.length_drop]
        omega
      refine ensureCursorVisible_basicInv _ _ ⟨?_, ?_, ?_⟩ <;> dsimp only
      · omega
      · rw [hl]
        omega
      · omega
    · exact ⟨h1, h2, h3⟩
  | delete =>
    simp only [textOnKey, keyDelete]
    split_ifs with hg
    · refine ⟨h1, ?_, h3⟩
      simp only [pyTake, pyDrop, List.length_append, List.length_take, List.length_drop]
      omega
    · exact ⟨h1, h2, h3⟩
  | char ch =>
    have hl : (pyTake v c ++ [ch] ++ pyDrop v c).length = v.length + 1 := by
      simp only [pyTake, pyDrop, List.length_append, List.length_take, List.length_drop,
        List.length_singleton]
      omega
    simp only [textOnKey, keyPrintable]
    split_ifs with hg
    · rw [hl] at hg
      refine ⟨?_, ?_, ?_⟩ <;> dsimp only <;> omega
    · refine ensureCursorVisible_basicInv _ _ ⟨?_, ?_, ?_⟩ <;> dsimp only
      · omega
      · rw [hl]
        omega
      · omega
  | up => exact ⟨h1, h2, h3⟩
  | down => exact ⟨h1, h2, h3⟩
  | other => exact ⟨h1, h2, h3⟩

theorem textOnKey_scrollInv (w : Int) (st : TextState) (k : Key)
    (he : 0 ≤ st.edgeVisibility) (hw : st.edgeVisibility + 1 ≤ w)
    (hb : BasicInv st) (hs : ScrollInv st) :
    ScrollInv (textOnKey w st k).1 := by
  obtain ⟨v, c, o, e⟩ := st
  obtain ⟨h1, h2, h3⟩ := hb
  simp only at h1 h2 h3 he hw
  unfold ScrollInv at hs ⊢
  simp only at hs
  cases k with
  | left =>
    simp only [textOnKey, cursorLeft]
    split_ifs with hg
    · refine ensureCursorVisible_scrollInv _ _ ?_ ?_ ?_ <;> simp only <;> omega
    · exact hs
  | right =>
    simp only [textOnKey, cursorRight]
    split_ifs with hg
    · refine ensureCursorVisible_scrollInv _ _ ?_ ?_ ?_ <;> simp only <;> omega
    · exact hs
  | home =>
    simp only [textOnKey, cursorHome]
    refine ensureCursorVisible_scrollInv _ _ ?_ ?_ ?_ <;> simp only <;> omega
  | endKey =>
    simp only [textOnKey, cursorEnd]
    refine ensureCursorVisible_scrollInv _ _ ?_ ?_ ?_ <;> simp only <;> omega
  | backspace =>
    simp only [textOnKey, keyBackspace]
    split_ifs with hg
    · refine ensureCursorVisible_scrollInv _ _ ?_ ?_ ?_ <;> simp only <;> omega
    · exact hs
  | delete =>
    simp only [textOnKey, keyDelete]
    split_ifs with hg
    · exact hs
    · exact hs
  | char ch =>
    simp only [textOnKey, keyPrintable]
    split_ifs with hg
    · exact hs
    · refine ensureCursorVisible_scrollInv _ _ ?_ ?_ ?_ <;> simp only <;> omega
  | up => exact hs
  | down => exact hs
  | other => exact hs

theorem textOnKey_edge (w : Int) (st : TextState) (k : Key) :
    (textOnKey w st k).1.edgeVisibility = st.edgeVisibility := by
  cases k with
  | left =>
    simp only [textOnKey, cursorLeft]
    split_ifs <;> first | rw [ensureCursorVisible_edge] | rfl
  | right =>
    simp only [textOnKey, cursorRight]
    split_ifs <;> first | rw [ensureCursorVisible_edge] | rfl
  | home =>
    simp only [textOnKey, cursorHome]
    rw [ensureCursorVisible_edge]
  | endKey =>
    simp only [textOnKey, cursorEnd]
    rw [ensureCursorVisible_edge]
  | backspace =>
    simp only [textOnKey, keyBackspace]
    split_ifs <;> first | rw [ensureCursorVisible_edge] | rfl
  | delete =>
    simp only [textOnKey, keyDelete]
    split_ifs <;> rfl
  | char ch =>
    simp only [textOnKey, keyPrintable]
    split_ifs <;> first | rw [ensureCursorVisible_edge] | rfl
  | up => rfl
  | down => rfl
  | other => rfl

theorem applyTextKeys_basicInv (w : Int) (ks : List Key) :
    ∀ st : TextState, BasicInv st → BasicInv (applyTextKeys w st ks) := by
  induction ks with
  | nil => exact fun st h => h
  | cons k ks ih => exact fun st h => ih _ (textOnKey_basicInv w st k h)

theorem applyTextKeys_scrollInv (w : Int) (ks : List Key) :
    ∀ st : TextState, 0 ≤ st.edgeVisibility → st.edgeVisibility + 1 ≤ w →
      BasicInv st → ScrollInv st → ScrollInv (applyTextKeys w st ks) := by
  induction ks with
  | nil => exact fun st _ _ _ hs => hs
  | cons k ks ih =>
    intro st he hw hb hs
    exact ih _ (by rw [textOnKey_edge]; exact he) (by rw [textOnKey_edge]; exact hw)
      (textOnKey_basicInv w st k hb) (textOnKey_scrollInv w st k he hw hb hs)

theorem ensureCursorVisible_eq_update (w : Int) (st : TextState) :
    ensureCursorVisible w st =
      { st with viewOffset := (ensureCursorVisible w st).viewOffset } := by
  obtain ⟨v, c, o, e⟩ := st
  cases hst : ensureCursorVisible w ⟨v, c, o, e⟩ with
  | mk v2 c2 o2 e2 =>
    have hv := ensureCursorVisible_value w ⟨v, c, o, e⟩
    have hc := ensureCursorVisible_cursor w ⟨v, c, o, e⟩
    have he := ensureCursorVisible_edge w ⟨v, c, o, e⟩
    rw [hst] at hv hc he
    simp only at hv hc he
    simp [hv, hc, he]

/-! ## Claim theorems -/

/-- Modelled from the spec: the two-rule viewport resynchronization
algorithm exactly as §4.2 words it — left rule: if
`cursor_index < scroll_offset + edge_margin`, scroll becomes
`max(0, cursor_index - edge_margin)`; right rule: if the cursor is within
`edge_margin` of, or past, the right edge (`scroll_offset + width - 1`),
scroll is set so the cursor sits `edge_margin` columns from the right edge,
clamped from above by `length(content) - visible_width + 1` and from below
by 0; otherwise scroll is unchanged. -/
def viewportResyncSpec (width : Int) (st : TextState) : Int :=
  if st.cursorPosition < st.viewOffset + st.edgeVisibility then
    max 0 (st.cursorPosition - st.edgeVisibility)
  else if st.viewOffset + width - 1 - st.cursorPosition < st.edgeVisibility then
    max 0 (min (st.cursorPosition - (width - 1 - st.edgeVisibility))
      ((st.value.length : Int) - width + 1))
  else
    st.viewOffset

/-- C5: the viewport resynchronization `_ensure_cursor_visible` performs
(after cursor moves and edits) computes exactly the spec's two-rule
algorithm on the scroll offset, and touches nothing else of the state. -/
theorem viewport_resync_equals_spec (width : Int) (st : TextState) :
    ensureCursorVisible width st =
      { st with viewOffset := viewportResyncSpec width st } := by
  have hv := ensureCursorVisible_value width st
  have hc := ensureCursorVisible_cursor width st
  have he := ensureCursorVisible_edge width st
  have ho := ensureCursorVisible_viewOffset width st
  cases hst : ensureCursorVisible width st with
  | mk v c o e =>
    rw [hst] at hv hc he ho
    simp only at hv hc he ho
    subst hv hc he
    simp only [TextState.mk.injEq, viewportResyncSpec, ho, and_true, true_and]
    split_ifs <;> omega

/-- C10: an `ElementStyle` with focus/hover overrides left unset returns the
default style for every state; a supplied focus or hover override is
returned for its state (and a state whose override is left unset still
falls back to the default). -/
theorem element_style_lookup (d f h : Style) (s : WidgetState) :
    get_style_for_state (ElementStyle.make d none none) s = d ∧
    get_style_for_state (ElementStyle.make d (some f) none) WidgetState.focus = f ∧
    get_style_for_state (ElementStyle.make d none (some h)) WidgetState.hover = h ∧
    get_style_for_state (ElementStyle.make d (some f) (some h)) WidgetState.focus = f ∧
    get_style_for_state (ElementStyle.make d (some f) (some h)) WidgetState.hover = h ∧
    get_style_for_state (ElementStyle.make d (some f) none) WidgetState.hover = d ∧
    get_style_for_state (ElementStyle.make d none (some h)) WidgetState.focus = d := by
  refine ⟨?_, rfl, rfl, rfl, rfl, rfl, rfl⟩
  cases s <;> rfl

/-- C4 (divergence witness): an unfocused `TextInput` with value `""`,
placeholder `"name"` and title `""` renders the segment list `[""]` — the
placeholder never appears in `_render_text`, contradicting the claim (and
the widget's own docstring), while `IntegerInput.render` in the same
situation does produce `["name"]` (and `["Age"]` when only a title is
set). -/
theorem text_render_ignores_placeholder :
    textRenderText 10 false false ⟨[], 0, 0, 3⟩ = [Segment.text []] ∧
    intRenderSegments false "name".toList [] ⟨none, 0, 1⟩ =
      [Segment.text "name".toList] ∧
    intRenderSegments false [] "Age".toList ⟨none, 0, 1⟩ =
      [Segment.text "Age".toList] ∧
    Segment.text [] ≠ Segment.text "name".toList := by
  refine ⟨by decide, by decide, by decide, by decide⟩

/-- C2 (exception witness): `IntegerInput.on_key` raises on reachable
states — the key sequence `5`, `home`, `-`, `end`, `backspace` from an
empty field reaches value `-5` with the cursor at the end, where the
backspace branch runs `int(value[0])`, i.e. `int("-")`, a `ValueError`;
and pressing `-` with a `None` value runs `value[0]` on the empty string,
an `IndexError`. -/
theorem integer_on_key_raises :
    applyIntKeys ⟨some 5, 1, 1⟩
      [Key.home, Key.char '-', Key.endKey, Key.backspace] = none ∧
    integerOnKey ⟨none, 0, 1⟩ (Key.char '-') = none := by
  refine ⟨by decide, by decide⟩

/-- C3 (counterexample): from a `None`-valued `IntegerInput`, pressing `5`
and moving the cursor home, the `-` key is *not* rejected: the guard
`value[0] != "-" and value != "0"` accepts it and the value becomes `-5`,
not `5` as the claim states. -/
theorem integer_minus_not_rejected :
    applyIntKeys (IntState.init none 1) [Key.char '5', Key.home, Key.char '-'] =
      some ⟨some (-5), 0, 1⟩ ∧
    (some (-5) : Option Int) ≠ some 5 := by
  refine ⟨by decide, by decide⟩

/-- C3 (amended): with value `None`, pressing `5` sets the value to 5; then
pressing `-` with the cursor at position 0 is accepted — the value does not
already start with `-` and is not `"0"` — so the value becomes `-5` (the
cursor is left where it was). -/
theorem integer_digit_then_minus :
    applyIntKeys (IntState.init none 1) [Key.char '5'] = some ⟨some 5, 4, 1⟩ ∧
    integerOnKey ⟨some 5, 0, 1⟩ (Key.char '-') = some (⟨some (-5), 0, 1⟩, true) := by
  refine ⟨by decide, by decide⟩

/-- C6: inserting a printable character and immediately backspacing
restores both the content and the cursor index exactly, for every state
with a valid cursor. -/
theorem insert_backspace_inverse (width : Int) (ch : Char) (st : TextState)
    (h0 : 0 ≤ st.cursorPosition) (h1 : st.cursorPosition ≤ (st.value.length : Int)) :
    (keyBackspace width (keyPrintable width ch st)).value = st.value ∧
    (keyBackspace width (keyPrintable width ch st)).cursorPosition = st.cursorPosition := by
  obtain ⟨v, c, o, e⟩ := st
  simp only at h0 h1
  set n := c.toNat with hn
  have hcn : c = (n : Int) := by omega
  have hnl : n ≤ v.length := by omega
  have hlen1 : (v.take n ++ [ch] ++ v.drop n).length = v.length + 1 := by
    simp only [List.length_append, List.length_take, List.length_drop,
      List.length_singleton]
    omega
  have hpr : keyPrintable width ch ⟨v, c, o, e⟩ =
      ensureCursorVisible width ⟨v.take n ++ [ch] ++ v.drop n, c + 1, o, e⟩ := by
    unfold keyPrintable
    simp only [pyTake, pyDrop]
    rw [if_pos]
    simp only [hlen1]
    omega
  rw [hpr, ensureCursorVisible_eq_update]
  unfold keyBackspace
  rw [if_pos (by simp only; omega)]
  rw [ensureCursorVisible_eq_update]
  simp only [pyTake, pyDrop]
  refine ⟨?_, by omega⟩
  have h2 : (c + 1 - 1).toNat = n := by omega
  have h3 : (c + 1).toNat = n + 1 := by omega
  rw [h2, h3]
  have h4 : (v.take n ++ [ch] ++ v.drop n).take n = v.take n := by
    rw [List.take_append_of_le_length (by simp [List.length_take]; omega),
      List.take_append_of_le_length (by simp [List.length_take]; omega),
      List.take_take, Nat.min_self]
  have h5 : (v.take n ++ [ch] ++ v.drop n).drop (n + 1) = v.drop n := by
    rw [List.drop_left' (by simp [List.length_take]; omega)]
  rw [h4, h5, List.take_append_drop]

/-- C6 witness. -/
theorem insert_backspace_inverse_witness :
    (keyBackspace 10 (keyPrintable 10 'x' ⟨['h', 'i'], 1, 0, 3⟩)).value = ['h', 'i'] ∧
    (keyBackspace 10 (keyPrintable 10 'x' ⟨['h', 'i'], 1, 0, 3⟩)).cursorPosition = 1 :=
  insert_backspace_inverse 10 'x' ⟨['h', 'i'], 1, 0, 3⟩ (by decide) (by decide)

/-- C7: delete-forward is a no-op at the end of the content; otherwise it
removes exactly the character at the cursor index, leaving the cursor and
the scroll offset untouched (no viewport resynchronization happens). -/
theorem delete_forward_frame (st : TextState) (h0 : 0 ≤ st.cursorPosition) :
    (st.cursorPosition = (st.value.length : Int) → keyDelete st = st) ∧
    (st.cursorPosition < (st.value.length : Int) →
      (keyDelete st).value = st.value.eraseIdx st.cursorPosition.toNat ∧
      (keyDelete st).cursorPosition = st.cursorPosition ∧
      (keyDelete st).viewOffset = st.viewOffset) := by
  obtain ⟨v, c, o, e⟩ := st
  simp only at h0
  constructor
  · intro h
    simp only at h
    unfold keyDelete
    rw [if_neg (by simp only; omega)]
  · intro h
    simp only at h
    unfold keyDelete
    rw [if_pos (by simp only; omega)]
    refine ⟨?_, rfl, rfl⟩
    simp only [pyTake, pyDrop]
    rw [List.eraseIdx_eq_take_drop_succ]
    have h3 : (c + 1).toNat = c.toNat + 1 := by omega
    rw [h3]

/-- C7 witness. -/
theorem delete_forward_frame_witness :
    keyDelete ⟨['a', 'b'], 2, 0, 3⟩ = ⟨['a', 'b'], 2, 0, 3⟩ ∧
    ((keyDelete ⟨['a', 'b', 'c'], 1, 7, 3⟩).value =
        (['a', 'b', 'c'] : List Char).eraseIdx ((1 : Int)).toNat ∧
      (keyDelete ⟨['a', 'b', 'c'], 1, 7, 3⟩).cursorPosition = 1 ∧
      (keyDelete ⟨['a', 'b', 'c'], 1, 7, 3⟩).viewOffset = 7) :=
  ⟨(delete_forward_frame ⟨['a', 'b'], 2, 0, 3⟩ (by decide)).1 (by decide),
    (delete_forward_frame ⟨['a', 'b', 'c'], 1, 7, 3⟩ (by decide)).2 (by decide)⟩

/-- C9: for `TextInput`, backspace at cursor 0 and delete at the end of the
content leave the whole state unchanged yet still emit an on-change message
and stop the event (the emitted/stopped boolean is `true`); `IntegerInput`
returns early from the same situations without emitting. -/
theorem noop_edits_still_emit (width : Int) (st : TextState) (ist : IntState) :
    (st.cursorPosition = 0 → textOnKey width st Key.backspace = (st, true)) ∧
    (st.cursorPosition = (st.value.length : Int) → textOnKey width st Key.delete = (st, true)) ∧
    (ist.cursorPosition = 0 → integerOnKey ist Key.backspace = some (ist, false)) ∧
    (ist.cursorPosition = ((intValueAsStr ist.value).length : Int) →
      integerOnKey ist Key.delete = some (ist, false)) := by
  refine ⟨?_, ?_, ?_, ?_⟩
  · intro h
    simp only [textOnKey, keyBackspace]
    rw [if_neg (by omega)]
  · intro h
    simp only [textOnKey, keyDelete]
    rw [if_neg (by omega)]
  · intro h
    simp only [integerOnKey]
    rw [if_pos h]
  · intro h
    simp only [integerOnKey]
    rw [if_pos h]

/-- C9 witness. -/
theorem noop_edits_still_emit_witness :
    textOnKey 10 ⟨[], 0, 5, 3⟩ Key.backspace = (⟨[], 0, 5, 3⟩, true) ∧
    textOnKey 10 ⟨[], 0, 5, 3⟩ Key.delete = (⟨[], 0, 5, 3⟩, true) ∧
    integerOnKey ⟨none, 0, 1⟩ Key.backspace = some (⟨none, 0, 1⟩, false) ∧
    integerOnKey ⟨none, 0, 1⟩ Key.delete = some (⟨none, 0, 1⟩, false) :=
  ⟨(noop_edits_still_emit 10 ⟨[], 0, 5, 3⟩ ⟨none, 0, 1⟩).1 (by decide),
    (noop_edits_still_emit 10 ⟨[], 0, 5, 3⟩ ⟨none, 0, 1⟩).2.1 (by decide),
    (noop_edits_still_emit 10 ⟨[], 0, 5, 3⟩ ⟨none, 0, 1⟩).2.2.1 (by decide),
    (noop_edits_still_emit 10 ⟨[], 0, 5, 3⟩ ⟨none, 0, 1⟩).2.2.2 (by decide)⟩

/-- C1 (counterexample): with the positive visible width 1 (and the default
edge margin 3), the reachable state after `home`, `right`, `right`, `right`
on a ten-character value has `scroll_offset = 6 > 3 = cursor_index`, so the
claimed invariant `scroll_offset ≤ cursor_index` fails for a fixed positive
visible width. -/
theorem scroll_invariant_fails_at_width_one :
    (0 : Int) < 1 ∧
    ¬ ScrollInv (applyTextKeys 1
      (TextState.init ['0', '1', '2', '3', '4', '5', '6', '7', '8', '9'])
      [Key.home, Key.right, Key.right, Key.right]) := by
  constructor
  · decide
  · show ¬ (applyTextKeys 1
      (TextState.init ['0', '1', '2', '3', '4', '5', '6', '7', '8', '9'])
      [Key.home, Key.right, Key.right, Key.right]).viewOffset ≤ _
    decide

/-- C1 (amended): after any key sequence from the constructor's initial
state, with a fixed positive visible width, the state satisfies
`0 ≤ cursor_index ≤ length(content)` and `0 ≤ scroll_offset`; the remaining
clause `scroll_offset ≤ cursor_index` holds once the visible width is at
least `edge_visibility + 1` (i.e. ≥ 4 with the default margin 3). -/
theorem text_input_invariants (width : Int) (v : List Char) (ks : List Key)
    (hw : 0 < width) :
    BasicInv (applyTextKeys width (TextState.init v) ks) ∧
    (4 ≤ width → ScrollInv (applyTextKeys width (TextState.init v) ks)) := by
  have hb : BasicInv (TextState.init v) := by
    refine ⟨?_, le_refl _, le_refl 0⟩
    exact Int.natCast_nonneg _
  constructor
  · exact applyTextKeys_basicInv width ks _ hb
  · intro h4
    refine applyTextKeys_scrollInv width ks _ ?_ ?_ hb ?_
    · show (0 : Int) ≤ 3
      omega
    · show (3 : Int) + 1 ≤ width
      omega
    · show (0 : Int) ≤ (v.length : Int)
      exact Int.natCast_nonneg _

/-- C1 witness. -/
theorem text_input_invariants_witness :
    BasicInv (applyTextKeys 10 (TextState.init ['h', 'e', 'l', 'l', 'o'])
      [Key.endKey, Key.char 'x', Key.left, Key.backspace, Key.home, Key.delete]) ∧
    ScrollInv (applyTextKeys 10 (TextState.init ['h', 'e', 'l', 'l', 'o'])
      [Key.endKey, Key.char 'x', Key.left, Key.backspace, Key.home, Key.delete]) :=
  ⟨(text_input_invariants 10 ['h', 'e', 'l', 'l', 'o']
      [Key.endKey, Key.char 'x', Key.left, Key.backspace, Key.home, Key.delete]
      (by decide)).1,
    (text_input_invariants 10 ['h', 'e', 'l', 'l', 'o']
      [Key.endKey, Key.char 'x', Key.left, Key.backspace, Key.home, Key.delete]
      (by decide)).2 (by decide)⟩

/-- C8: `make_message_class` raises `ValueError` exactly when the name does
not start with `"handle_"` or contains a character outside lowercase ASCII
letters, digits and underscore (the source's `len < 7` check is subsumed:
any string starting with `"handle_"` has length ≥ 7); every accepted name
yields a class whose `_handler` is the name itself, so setting
`on_change_handler_name` and reading it back returns the same string. -/
theorem handler_name_validation (h : List Char) :
    ((∃ e, make_message_class h = Except.error e) ↔
      (¬ "handle_".toList <+: h ∨ ∃ c ∈ h, c ∉ HANDLER_SAFE)) ∧
    (∀ m, make_message_class h = Except.ok m → m.handler = h) ∧
    (∀ t t', set_on_change_handler_name t h = Except.ok t' →
      on_change_handler_name t' = h) := by
  by_cases hp : "handle_".toList <+: h
  · have hpb : ("handle_".toList.isPrefixOf h) = true := List.isPrefixOf_iff_prefix.mpr hp
    have h7 : ("handle_".toList).length = 7 := by decide
    have hlen : ¬ h.length < 7 := by
      have := hp.length_le
      omega
    by_cases hall : ∀ c ∈ h, c ∈ HANDLER_SAFE
    · have hallb : (h.all fun c => decide (c ∈ HANDLER_SAFE)) = true := by
        rw [List.all_eq_true]
        intro c hc
        exact decide_eq_true (hall c hc)
      have hmk : make_message_class h =
          Except.ok ⟨(h.map Char.toLower).drop 7, h, true⟩ := by
        unfold make_message_class
        rw [if_neg (not_not_intro hpb), if_neg hlen, if_neg (not_not_intro hallb)]
      refine ⟨?_, ?_, ?_⟩
      · rw [hmk]
        constructor
        · rintro ⟨e, he⟩
          exact Except.noConfusion he
        · rintro (hc | ⟨c, hc, hcs⟩)
          · exact absurd hp hc
          · exact absurd (hall c hc) hcs

      · intro m hm
        rw [hmk] at hm
        cases hm
        rfl
      · intro t t' ht
        unfold set_on_change_handler_name at ht
        rw [hmk] at ht
        simp only [Except.map] at ht
        cases ht
        rfl
    · have hallb : ¬ ((h.all fun c => decide (c ∈ HANDLER_SAFE)) = true) := by
        rw [List.all_eq_true]
        intro hx
        exact hall (fun c hc => of_decide_eq_true (hx c hc))
      push_neg at hall
      have hmk : make_message_class h =
          Except.error
            "handler_name must contain only lowercase ASCII letters, numbers and underscores.".toList := by
        unfold make_message_class
        rw [if_neg (not_not_intro hpb), if_neg hlen, if_pos hallb]
      refine ⟨?_, ?_, ?_⟩
      · rw [hmk]
        constructor
        · intro _
          exact Or.inr hall
        · intro _
          exact ⟨_, rfl⟩
      · intro m hm
        rw [hmk] at hm
        exact Except.noConfusion hm
      · intro t t' ht
        unfold set_on_change_handler_name at ht
        rw [hmk] at ht
        simp only [Except.map] at ht
        exact Except.noConfusion ht
  · have hpb : ¬ (("handle_".toList.isPrefixOf h) = true) := by
      rw [List.isPrefixOf_iff_prefix]
      exact hp
    have hmk : make_message_class h =
        Except.error "handler_name must start with handle_".toList := by
      unfold make_message_class
      rw [if_pos hpb]
    refine ⟨?_, ?_, ?_⟩
    · rw [hmk]
      constructor
      · intro _
        exact Or.inl hp
      · intro _
        exact ⟨_, rfl⟩
    · intro m hm
      rw [hmk] at hm
      exact Except.noConfusion hm
    · intro t t' ht
      unfold set_on_change_handler_name at ht
      rw [hmk] at ht
      simp only [Except.map] at ht
      exact Except.noConfusion ht

/-- C8 witness. -/
theorem handler_name_validation_witness :
    MessageClass.handler ⟨"foo".toList, "handle_foo".toList, true⟩ = "handle_foo".toList ∧
    on_change_handler_name
        ⟨⟨"foo".toList, "handle_foo".toList, true⟩, InputOnFocus⟩ = "handle_foo".toList :=
  ⟨(handler_name_validation "handle_foo".toList).2.1
      ⟨"foo".toList, "handle_foo".toList, true⟩ (by rfl),
    (handler_name_validation "handle_foo".toList).2.2
      ⟨InputOnChange, InputOnFocus⟩
      ⟨⟨"foo".toList, "handle_foo".toList, true⟩, InputOnFocus⟩ (by rfl)⟩

end TextualInputs

